import Mathlib

/-!
Shallow embedding of the booking/payment core of the smart_park repository
(src/app.py, src/database.py, src/config.py).

Modelling conventions:
* timestamps are integer seconds (`Int`); Python `datetime` subtraction
  followed by `total_seconds()` becomes integer subtraction;
* monetary values and hour counts are exact rationals (`ℚ`) standing for
  the Python floats used by the code (all claims involve only exactly
  representable values);
* the database session is an explicit record `DBState`; each Flask handler
  becomes a function from the state (plus parsed request data) to an
  `Except` of an error or the updated state and created row;
* the randomly generated booking/payment references and the current wall
  clock are passed in as parameters.
-/

namespace SmartPark

/-- Booking status strings of database.py (pending, confirmed, active,
completed, cancelled). -/
inductive BookingStatus
  | pending
  | confirmed
  | active
  | completed
  | cancelled
deriving DecidableEq, Repr

/-- Booking payment_status strings of database.py (pending, paid, refunded). -/
inductive PayStatus
  | pending
  | paid
  | refunded
deriving DecidableEq, Repr

/-- Payment status strings of database.py (pending, processing, completed,
failed, refunded). -/
inductive PaymentStatus
  | pending
  | processing
  | completed
  | failed
  | refunded
deriving DecidableEq, Repr

/-- Row of the parking_spaces table (database.py, class ParkingSpace);
fields not consulted by the booking/payment endpoints are omitted. -/
structure ParkingSpace where
  space_number : String
  row : Int
  column : Int
  is_occupied : Bool
  hourly_rate : ℚ
deriving DecidableEq, Repr

/-- Row of the bookings table (database.py, class Booking); opaque customer
fields other than those read back by the payment path are omitted. -/
structure Booking where
  booking_reference : String
  space_number : String
  customer_name : String
  customer_email : String
  vehicle_number : String
  start_time : Int
  end_time : Int
  total_amount : ℚ
  status : BookingStatus
  payment_status : PayStatus
  payment_id : Option String
  created_at : Int
  updated_at : Int
deriving DecidableEq, Repr

/-- Row of the payments table (database.py, class Payment); the booking_id
foreign key is modelled by the booking reference of the booking row it was
created from. -/
structure Payment where
  payment_reference : String
  booking_ref : String
  amount : ℚ
  payment_method : String
  payment_gateway : String
  gateway_transaction_id : Option String
  status : PaymentStatus
  customer_email : String
  completed_at : Option Int
deriving DecidableEq, Repr

/-- The relevant database tables. -/
structure DBState where
  spaces : List ParkingSpace
  bookings : List Booking
  payments : List Payment
deriving DecidableEq, Repr

/-- config.py BOOKING_CONFIG cancellation_hours. -/
def cancellation_hours : ℚ := 2

/-- config.py PAYMENT_CONFIG demo_mode. -/
def demo_mode : Bool := true

/-- Error responses of the booking/payment endpoints in src/app.py, one
constructor per distinct error message on the modelled paths. -/
inductive ApiError
  | spaceNotFound
  | spaceUnavailable
  | bookingNotFound
  | cannotCancel
  | cancelTooLate
  | alreadyPaid
deriving DecidableEq, Repr

/-- Parsed body of POST /api/bookings/create after the required-field and
datetime-format checks of app.py lines 469 to 479. -/
structure BookingRequest where
  space_number : String
  customer_name : String
  customer_email : String
  vehicle_number : String
  start_time : Int
  end_time : Int
deriving DecidableEq, Repr

/-- The SQL filter used both by get_available_slots (app.py 391 to 395) and
create_booking (app.py 493 to 498): status in (confirmed, active) and
start_time < end and end_time > start. -/
def conflictsWith (startT endT : Int) (b : Booking) : Bool :=
  (b.status == .confirmed || b.status == .active)
    && decide (b.start_time < endT) && decide (b.end_time > startT)

/-- GET /api/bookings/available (app.py get_available_slots): spaces whose
number is in no overlapping confirmed/active booking and that are not
physically occupied. No validation of the interval ordering is performed. -/
def get_available_slots (st : DBState) (startT endT : Int) : List ParkingSpace :=
  let booked := st.bookings.filter (conflictsWith startT endT)
  st.spaces.filter (fun s =>
    !(booked.any (fun b => b.space_number == s.space_number)) && !s.is_occupied)

/-- Round to the nearest integer, ties to even: the rounding mode of the
Python round builtin, over the exact-rational model of floats. -/
def roundHalfEven (q : ℚ) : Int :=
  let f := ⌊q⌋
  let frac := q - f
  if frac < 1/2 then f
  else if 1/2 < frac then f + 1
  else if f % 2 = 0 then f else f + 1

/-- Python round(x, 2), as applied to the returned total cost at app.py
line 456: round half to even at two decimal places. -/
def round2 (q : ℚ) : ℚ := (roundHalfEven (q * 100) : ℚ) / 100

/-- POST /api/bookings/calculate (app.py calculate_booking_cost, lines 443
to 458): duration in hours times the hourly rate of the space, rounded to
two decimals by the round(total_cost, 2) of line 456. No validation of the
interval ordering is performed. -/
def calculate_booking_cost (st : DBState) (sn : String) (startT endT : Int) :
    Except ApiError ℚ :=
  match st.spaces.find? (fun s => s.space_number == sn) with
  | none => .error .spaceNotFound
  | some space =>
    .ok (round2 (((endT - startT : Int) : ℚ) / 3600 * space.hourly_rate))

/-- POST /api/bookings/create (app.py create_booking): checks the space
exists, checks no confirmed/active booking for the same space overlaps the
requested interval, computes the cost and inserts a pending booking. The
generated reference and the clock are parameters. -/
def create_booking (st : DBState) (req : BookingRequest) (bref : String)
    (now : Int) : Except ApiError (DBState × Booking) :=
  match st.spaces.find? (fun s => s.space_number == req.space_number) with
  | none => .error .spaceNotFound
  | some space =>
    if st.bookings.any (fun b =>
        b.space_number == req.space_number
          && conflictsWith req.start_time req.end_time b) then
      .error .spaceUnavailable
    else
      let duration : ℚ := ((req.end_time - req.start_time : Int) : ℚ) / 3600
      let b : Booking :=
        { booking_reference := bref
          space_number := req.space_number
          customer_name := req.customer_name
          customer_email := req.customer_email
          vehicle_number := req.vehicle_number
          start_time := req.start_time
          end_time := req.end_time
          total_amount := duration * space.hourly_rate
          status := .pending
          payment_status := .pending
          payment_id := none
          created_at := now
          updated_at := now }
      .ok ({ st with bookings := st.bookings ++ [b] }, b)

/-- Apply f to the first booking in the list carrying the given reference,
modelling an in-place ORM update of the row returned by filter_by(...).first(). -/
def updateBooking (bs : List Booking) (ref : String) (f : Booking → Booking) :
    List Booking :=
  match bs with
  | [] => []
  | b :: rest =>
    if b.booking_reference == ref then f b :: rest
    else b :: updateBooking rest ref f

/-- Cancellation update applied to the booking row (app.py lines 650 to 651). -/
def cancelUpdate (now : Int) (b : Booking) : Booking :=
  { b with status := .cancelled, updated_at := now }

/-- POST /api/bookings/(ref)/cancel (app.py cancel_booking): not found, then
terminal-state guard, then the cancellation-lead-time policy with a strict
comparison against BOOKING_CONFIG cancellation_hours, then the update. -/
def cancel_booking (st : DBState) (ref : String) (now : Int) :
    Except ApiError DBState :=
  match st.bookings.find? (fun b => b.booking_reference == ref) with
  | none => .error .bookingNotFound
  | some booking =>
    if booking.status == .completed || booking.status == .cancelled then
      .error .cannotCancel
    else
      let time_until_start : ℚ := ((booking.start_time - now : Int) : ℚ) / 3600
      if time_until_start < cancellation_hours then .error .cancelTooLate
      else
        .ok { st with
          bookings := updateBooking st.bookings ref (cancelUpdate now) }

/-- The payment row as first constructed, in processing state, with the
amount copied from the booking (app.py lines 690 to 699). -/
def mkPayment (booking : Booking) (method payRef : String) : Payment :=
  { payment_reference := payRef
    booking_ref := booking.booking_reference
    amount := booking.total_amount
    payment_method := method
    payment_gateway := if demo_mode then "demo" else "stripe"
    gateway_transaction_id := none
    status := .processing
    customer_email := booking.customer_email
    completed_at := none }

/-- Demo-mode synchronous completion of the payment row (app.py lines 706
to 708). -/
def completePayment (p : Payment) (txn : String) (now : Int) : Payment :=
  { p with
    status := .completed
    completed_at := some now
    gateway_transaction_id := some txn }

/-- Demo-mode update of the booking row after a completed payment (app.py
lines 710 to 712). -/
def confirmBooking (payRef : String) (b : Booking) : Booking :=
  { b with
    payment_status := .paid
    payment_id := some payRef
    status := .confirmed }

/-- POST /api/payments/process (app.py process_payment): not found, then the
already-paid guard, then the payment row is created in processing; in demo
mode it is completed synchronously and the booking is confirmed and marked
paid. The generated payment reference, the synthetic transaction id and the
clock are parameters. -/
def process_payment (st : DBState) (ref : String) (method : String)
    (payRef : String) (txn : String) (now : Int) :
    Except ApiError (DBState × Payment) :=
  match st.bookings.find? (fun b => b.booking_reference == ref) with
  | none => .error .bookingNotFound
  | some booking =>
    if booking.payment_status == .paid then .error .alreadyPaid
    else
      let payment0 : Payment := mkPayment booking method payRef
      if demo_mode then
        let payment : Payment := completePayment payment0 txn now
        .ok ({ st with
                payments := st.payments ++ [payment]
                bookings := updateBooking st.bookings ref
                  (confirmBooking payRef) },
             payment)
      else
        .ok ({ st with payments := st.payments ++ [payment0] }, payment0)

/-- POST /api/parking/update (app.py update_parking_status), restricted to the
fields the booking core reads: sets is_occupied on the named space. -/
def update_parking_status (st : DBState) (sn : String) (occ : Bool) :
    Except ApiError DBState :=
  match st.spaces.find? (fun s => s.space_number == sn) with
  | none => .error .spaceNotFound
  | some _ =>
    .ok { st with
      spaces := st.spaces.map (fun s =>
        if s.space_number == sn then { s with is_occupied := occ } else s) }

/-- Insert a booking into a list kept in descending created_at order. -/
def insertDesc (b : Booking) : List Booking → List Booking
  | [] => [b]
  | c :: rest =>
    if c.created_at ≤ b.created_at then b :: c :: rest
    else c :: insertDesc b rest

/-- Sort bookings by created_at, most recent first (app.py order_by
created_at.desc()). -/
def sortByCreatedDesc : List Booking → List Booking
  | [] => []
  | b :: rest => insertDesc b (sortByCreatedDesc rest)

/-- GET /api/bookings (app.py get_all_bookings): optional status filter, then
the optional from_date filter whose datetime parse failure is swallowed by
except ValueError: pass, then order by created_at descending and limit 100.
The ISO datetime parser of the Python standard library is a parameter. -/
def get_all_bookings (st : DBState) (statusFilter : Option BookingStatus)
    (from_date : Option String) (parseIso : String → Option Int) :
    List Booking :=
  let q1 := match statusFilter with
    | none => st.bookings
    | some s => st.bookings.filter (fun b => b.status == s)
  let q2 := match from_date with
    | none => q1
    | some str =>
      match parseIso str with
      | none => q1
      | some t => q1.filter (fun b => decide (t ≤ b.start_time))
  (sortByCreatedDesc q2).take 100

/-- A booking counts against availability when its status is confirmed or
active (the status filter of the two overlap queries). -/
def isBlocking (b : Booking) : Bool :=
  b.status == .confirmed || b.status == .active

/-- Two bookings clash when they reference the same space and their half-open
intervals overlap under the strict-inequality rule of the spec glossary. -/
def clash (a b : Booking) : Bool :=
  a.space_number == b.space_number
    && decide (a.start_time < b.end_time) && decide (b.start_time < a.end_time)

/-- Every element of the list clashes with no later element. -/
def pairwiseNoClash : List Booking → Bool
  | [] => true
  | b :: rest => rest.all (fun c => !(clash b c)) && pairwiseNoClash rest

/-- The non-overlap invariant of the spec: the confirmed/active bookings are
pairwise non-overlapping per space. -/
def noOverlap (st : DBState) : Bool :=
  pairwiseNoClash (st.bookings.filter isBlocking)

/-- Status of the booking carrying the given reference, if any. -/
def statusOf (st : DBState) (ref : String) : Option BookingStatus :=
  (st.bookings.find? (fun b => b.booking_reference == ref)).map Booking.status

/-- payment_status of the booking carrying the given reference, if any. -/
def payStatusOf (st : DBState) (ref : String) : Option PayStatus :=
  (st.bookings.find? (fun b => b.booking_reference == ref)).map
    Booking.payment_status

/-- payment_id of the booking carrying the given reference, if any. -/
def paymentIdOf (st : DBState) (ref : String) : Option (Option String) :=
  (st.bookings.find? (fun b => b.booking_reference == ref)).map
    Booking.payment_id

/-- updated_at of the booking carrying the given reference, if any. -/
def updatedAtOf (st : DBState) (ref : String) : Option Int :=
  (st.bookings.find? (fun b => b.booking_reference == ref)).map
    Booking.updated_at

/-- The quote formula in the words of spec section 4.2: interval length in
seconds divided by 3600, times the hourly rate. -/
def quoteSpec (startT endT : Int) (rate : ℚ) : ℚ :=
  ((endT - startT : Int) : ℚ) / 3600 * rate

/-- Completed payments recorded against a given booking reference. -/
def completedFor (st : DBState) (ref : String) : List Payment :=
  st.payments.filter (fun p => p.booking_ref == ref && p.status == .completed)

/-- The payment invariant of the spec data model: paid exactly when at least
one completed payment exists, and never more than one completed payment. -/
def paidIffCompleted (st : DBState) : Prop :=
  ∀ b ∈ st.bookings,
    (b.payment_status = .paid ↔ 1 ≤ (completedFor st b.booking_reference).length)
    ∧ (completedFor st b.booking_reference).length ≤ 1

/-- Booking references are pairwise distinct (the uniqueness constraint on
the booking_reference column in database.py). -/
def refsUnique (st : DBState) : Prop :=
  (st.bookings.map Booking.booking_reference).Nodup

/-- Every payment row points at the reference of some booking row. -/
def paymentsLinked (st : DBState) : Prop :=
  ∀ p ∈ st.payments, p.booking_ref ∈ st.bookings.map Booking.booking_reference

/-- Inductive strengthening of the payment invariant. -/
def payInv (st : DBState) : Prop :=
  refsUnique st ∧ paymentsLinked st ∧ paidIffCompleted st

/-- One successful mutating operation of the service. The freshness
hypothesis of the creation step models the uniqueness constraint on the
booking_reference column enforced by the store. -/
inductive Step : DBState → DBState → Prop
  | createB (st : DBState) (req : BookingRequest) (bref : String) (now : Int)
      (st' : DBState) (b : Booking)
      (hfresh : ∀ x ∈ st.bookings, x.booking_reference ≠ bref)
      (h : create_booking st req bref now = .ok (st', b)) : Step st st'
  | cancelB (st : DBState) (ref : String) (now : Int) (st' : DBState)
      (h : cancel_booking st ref now = .ok st') : Step st st'
  | payB (st : DBState) (ref method payRef txn : String) (now : Int)
      (st' : DBState) (p : Payment)
      (h : process_payment st ref method payRef txn now = .ok (st', p)) :
      Step st st'
  | setOcc (st : DBState) (sn : String) (occ : Bool) (st' : DBState)
      (h : update_parking_status st sn occ = .ok st') : Step st st'

/-- States reachable from a freshly initialized lot (any catalog of spaces,
no bookings, no payments) by the mutating operations. -/
inductive Reachable : DBState → Prop
  | init (spaces : List ParkingSpace) :
      Reachable { spaces := spaces, bookings := [], payments := [] }
  | step (s s' : DBState) : Reachable s → Step s s' → Reachable s'

/-- Placeholder booking used by the result-extraction helpers below. -/
def dummyBooking : Booking :=
  { booking_reference := "", space_number := "", customer_name := ""
    customer_email := "", vehicle_number := "", start_time := 0, end_time := 0
    total_amount := 0, status := .pending, payment_status := .pending
    payment_id := none, created_at := 0, updated_at := 0 }

/-- State reached by a booking-creating call, or the fallback on error. -/
def stAfter (r : Except ApiError (DBState × Booking)) (fallback : DBState) :
    DBState :=
  match r with
  | .ok (s, _) => s
  | .error _ => fallback

/-- Booking created by a booking-creating call, or a placeholder on error. -/
def bkAfter (r : Except ApiError (DBState × Booking)) : Booking :=
  match r with
  | .ok (_, b) => b
  | .error _ => dummyBooking

/-- State reached by a payment call, or the fallback on error. -/
def stAfterPay (r : Except ApiError (DBState × Payment)) (fallback : DBState) :
    DBState :=
  match r with
  | .ok (s, _) => s
  | .error _ => fallback

/-- Placeholder payment used by the result-extraction helper below. -/
def dummyPayment : Payment :=
  { payment_reference := "", booking_ref := "", amount := 0
    payment_method := "", payment_gateway := ""
    gateway_transaction_id := none, status := .pending
    customer_email := "", completed_at := none }

/-- Payment created by a payment call, or a placeholder on error. -/
def payAfter (r : Except ApiError (DBState × Payment)) : Payment :=
  match r with
  | .ok (_, p) => p
  | .error _ => dummyPayment

/-- State reached by a cancellation call, or the fallback on error. -/
def stAfterCancel (r : Except ApiError DBState) (fallback : DBState) :
    DBState :=
  match r with
  | .ok s => s
  | .error _ => fallback

/-- A one-space catalog entry used by the concrete scenarios. -/
def exSpace : ParkingSpace :=
  { space_number := "P001", row := 0, column := 0, is_occupied := false
    hourly_rate := 5 }

/-- A three-hour request for space P001 (seconds 0 to 10800). -/
def exReq : BookingRequest :=
  { space_number := "P001", customer_name := "Ada"
    customer_email := "ada@example.com", vehicle_number := "V1"
    start_time := 0, end_time := 10800 }

/-- Fresh lot holding only P001. -/
def exSt0 : DBState := { spaces := [exSpace], bookings := [], payments := [] }

/-- First booking created on the fresh lot. -/
def exBk1 : Booking := bkAfter (create_booking exSt0 exReq "BK1" 0)

/-- State after the first creation. -/
def exSt1 : DBState := stAfter (create_booking exSt0 exReq "BK1" 0) exSt0

/-- Second booking, identical interval, created while the first is pending. -/
def exBk2 : Booking := bkAfter (create_booking exSt1 exReq "BK2" 0)

/-- State after the second creation. -/
def exSt2 : DBState := stAfter (create_booking exSt1 exReq "BK2" 0) exSt1

/-- State after paying the first booking. -/
def exSt3 : DBState :=
  stAfterPay (process_payment exSt2 "BK1" "card" "PAY1" "t1" 100) exSt2

/-- State after also paying the second, fully overlapping booking. -/
def exSt4 : DBState :=
  stAfterPay (process_payment exSt3 "BK2" "card" "PAY2" "t2" 200) exSt3

/-- A request overlapping the confirmed booking of exSt3 (7200 to 14400). -/
def exReqOverlap : BookingRequest :=
  { space_number := "P001", customer_name := "Bob"
    customer_email := "bob@example.com", vehicle_number := "V2"
    start_time := 7200, end_time := 14400 }

/-- A request touching the confirmed booking of exSt3 at its end boundary
(10800 to 14400). -/
def exReqTouch : BookingRequest :=
  { space_number := "P001", customer_name := "Bob"
    customer_email := "bob@example.com", vehicle_number := "V2"
    start_time := 10800, end_time := 14400 }

/-- A cancelled, unpaid booking. -/
def exCancelled : Booking :=
  { booking_reference := "BKC", space_number := "P001", customer_name := "Cy"
    customer_email := "cy@example.com", vehicle_number := "V3"
    start_time := 0, end_time := 3600, total_amount := 5, status := .cancelled
    payment_status := .pending, payment_id := none, created_at := 0
    updated_at := 0 }

/-- State holding only the cancelled, unpaid booking. -/
def exStC : DBState :=
  { spaces := [exSpace], bookings := [exCancelled], payments := [] }

/-- State after running a payment against the cancelled booking. -/
def exStCPaid : DBState :=
  stAfterPay (process_payment exStC "BKC" "card" "PAY9" "t9" 50) exStC

/-- A degenerate request whose interval is empty (3600 to 3600). -/
def exReqDegen : BookingRequest :=
  { space_number := "P001", customer_name := "Dee"
    customer_email := "dee@example.com", vehicle_number := "V4"
    start_time := 3600, end_time := 3600 }

/-- State after creating the degenerate-interval booking on the fresh lot. -/
def exStDegen : DBState := stAfter (create_booking exSt0 exReqDegen "BK9" 0) exSt0

/-- The degenerate-interval booking itself. -/
def exBkDegen : Booking := bkAfter (create_booking exSt0 exReqDegen "BK9" 0)

/-- A physically occupied space. -/
def exSpaceOcc : ParkingSpace :=
  { space_number := "P002", row := 0, column := 1, is_occupied := true
    hourly_rate := 5 }

/-- Lot holding only the occupied space, with no bookings. -/
def exStOcc : DBState :=
  { spaces := [exSpaceOcc], bookings := [], payments := [] }

/-- A request for the occupied space (0 to 3600). -/
def exReqOcc : BookingRequest :=
  { space_number := "P002", customer_name := "Eve"
    customer_email := "eve@example.com", vehicle_number := "V5"
    start_time := 0, end_time := 3600 }

/-- A pending booking starting at second 7200, used for the cancellation
boundary scenario. -/
def exBkPend : Booking :=
  { booking_reference := "BKP", space_number := "P001", customer_name := "Fay"
    customer_email := "fay@example.com", vehicle_number := "V6"
    start_time := 7200, end_time := 14400, total_amount := 10
    status := .pending, payment_status := .pending, payment_id := none
    created_at := 0, updated_at := 0 }

/-- State holding only the pending booking of the cancellation scenario. -/
def exStPend : DBState :=
  { spaces := [exSpace], bookings := [exBkPend], payments := [] }

/-- An ISO parser that accepts nothing, standing for a parse failure. -/
def noParse : String → Option Int := fun _ => none

/-- Payment created by running a payment against the cancelled booking. -/
def exStCPay : Payment :=
  payAfter (process_payment exStC "BKC" "card" "PAY9" "t9" 50)

/-- Updating a booking in place does not change the column of references. -/
theorem updateBooking_map_ref (bs : List Booking) (ref : String)
    (f : Booking → Booking)
    (hf : ∀ b, (f b).booking_reference = b.booking_reference) :
    (updateBooking bs ref f).map Booking.booking_reference
      = bs.map Booking.booking_reference := by
  induction bs with
  | nil => rfl
  | cons b rest ih =>
    simp only [updateBooking]
    split
    · simp [hf]
    · simp [ih]

/-- Every row of an updated table is an old row or the image of an old row. -/
theorem mem_updateBooking (bs : List Booking) (ref : String)
    (f : Booking → Booking) (b' : Booking)
    (h : b' ∈ updateBooking bs ref f) :
    b' ∈ bs ∨ ∃ b ∈ bs, b' = f b := by
  induction bs with
  | nil => simp [updateBooking] at h
  | cons b rest ih =>
    simp only [updateBooking] at h
    split at h
    · rcases List.mem_cons.mp h with h1 | h1
      · exact Or.inr ⟨b, List.mem_cons_self _ _, h1⟩
      · exact Or.inl (List.mem_cons_of_mem _ h1)
    · rcases List.mem_cons.mp h with h1 | h1
      · exact Or.inl (h1 ▸ List.mem_cons_self _ _)
      · rcases ih h1 with h2 | ⟨c, hc, hfc⟩
        · exact Or.inl (List.mem_cons_of_mem _ h2)
        · exact Or.inr ⟨c, List.mem_cons_of_mem _ hc, hfc⟩

/-- With distinct references, every row of an updated table is either the
image of an old row carrying the targeted reference, or an untouched old row
carrying a different reference. -/
theorem mem_updateBooking_nodup (bs : List Booking) (ref : String)
    (f : Booking → Booking)
    (hnd : (bs.map Booking.booking_reference).Nodup)
    (b' : Booking) (hm : b' ∈ updateBooking bs ref f) :
    (∃ b ∈ bs, b.booking_reference = ref ∧ b' = f b)
      ∨ (b' ∈ bs ∧ b'.booking_reference ≠ ref) := by
  induction bs with
  | nil => simp [updateBooking] at hm
  | cons b rest ih =>
    simp only [List.map_cons, List.nodup_cons] at hnd
    simp only [updateBooking] at hm
    split at hm
    · rename_i hb
      rcases List.mem_cons.mp hm with h1 | h1
      · exact Or.inl ⟨b, List.mem_cons_self _ _, by simpa using hb, h1⟩
      · refine Or.inr ⟨List.mem_cons_of_mem _ h1, ?_⟩
        intro hcontra
        have hbr : b.booking_reference = ref := by simpa using hb
        exact hnd.1
          (hbr ▸ hcontra ▸ List.mem_map_of_mem Booking.booking_reference h1)
    · rename_i hb
      rcases List.mem_cons.mp hm with h1 | h1
      · refine Or.inr ⟨h1 ▸ List.mem_cons_self _ _, ?_⟩
        subst h1
        simpa using hb
      · rcases ih hnd.2 h1 with ⟨c, hc, hcr, hfc⟩ | ⟨h2, h3⟩
        · exact Or.inl ⟨c, List.mem_cons_of_mem _ hc, hcr, hfc⟩
        · exact Or.inr ⟨List.mem_cons_of_mem _ h2, h3⟩

/-- Looking up the targeted reference after an in-place update returns the
updated row, provided the update keeps the reference. -/
theorem find?_updateBooking (bs : List Booking) (ref : String)
    (f : Booking → Booking) (b : Booking)
    (hf : ∀ x, (f x).booking_reference = x.booking_reference)
    (h : bs.find? (fun x => x.booking_reference == ref) = some b) :
    (updateBooking bs ref f).find? (fun x => x.booking_reference == ref)
      = some (f b) := by
  induction bs with
  | nil => simp at h
  | cons c rest ih =>
    by_cases hc : (c.booking_reference == ref) = true
    · rw [List.find?_cons_of_pos
        (p := fun x : Booking => x.booking_reference == ref) _ hc] at h
      injection h with h
      subst h
      simp only [updateBooking, hc, if_true]
      have hfc : ((f c).booking_reference == ref) = true := by
        rw [hf]; exact hc
      rw [List.find?_cons_of_pos
        (p := fun x : Booking => x.booking_reference == ref) _ hfc]
    · rw [List.find?_cons_of_neg
        (p := fun x : Booking => x.booking_reference == ref) _ hc] at h
      simp only [updateBooking, hc, Bool.false_eq_true, if_false]
      rw [List.find?_cons_of_neg
        (p := fun x : Booking => x.booking_reference == ref) _ hc]
      exact ih h

/-- Bridge between the float comparison of cancel_booking and integer
seconds: x seconds over 3600 is below two hours exactly when x < 7200. -/
theorem hours_lt_two_iff (x : Int) : ((x : ℚ) / 3600 < 2) ↔ x < 7200 := by
  rw [div_lt_iff₀ (by norm_num : (0:ℚ) < 3600)]
  norm_num
  constructor <;> intro h <;> exact_mod_cast h

/-- Appending a non-blocking booking preserves the non-overlap invariant. -/
theorem noOverlap_append_nonblocking (st : DBState) (b : Booking)
    (hb : isBlocking b = false) (hinv : noOverlap st = true) :
    noOverlap { st with bookings := st.bookings ++ [b] } = true := by
  unfold noOverlap at hinv ⊢
  simpa [List.filter_append, List.filter_cons, hb] using hinv

/-- Half-even rounding fixes the integers. -/
theorem roundHalfEven_intCast (n : Int) : roundHalfEven (n : ℚ) = n := by
  unfold roundHalfEven
  rw [Int.floor_intCast]
  norm_num

/-- Two-decimal rounding fixes the integers. -/
theorem round2_intCast (n : Int) : round2 (n : ℚ) = n := by
  unfold round2
  rw [show ((n : ℚ) * 100) = ((n * 100 : Int) : ℚ) by push_cast; ring,
    roundHalfEven_intCast]
  push_cast
  rw [mul_div_assoc]
  norm_num

/-- Half-even rounding of a non-positive rational is non-positive. -/
theorem roundHalfEven_nonpos (q : ℚ) (h : q ≤ 0) : roundHalfEven q ≤ 0 := by
  have hf : ⌊q⌋ ≤ 0 := by
    have h2 := Int.floor_le_floor h
    simpa using h2
  have hle : (⌊q⌋ : ℚ) ≤ q := Int.floor_le q
  unfold roundHalfEven
  dsimp only
  split
  · exact hf
  · split
    · rename_i hgt
      have h3 : (⌊q⌋ : ℚ) < 0 := by linarith
      have h4 : ⌊q⌋ < 0 := by exact_mod_cast h3
      omega
    · split
      · exact hf
      · rename_i hnlt hngt _
        push_neg at hnlt hngt
        have h3 : (⌊q⌋ : ℚ) ≤ -(1/2) := by linarith
        have h4 : (⌊q⌋ : ℚ) < 0 := by linarith
        have h5 : ⌊q⌋ < 0 := by exact_mod_cast h4
        omega

/-- Two-decimal rounding of a non-positive rational is non-positive. -/
theorem round2_nonpos (q : ℚ) (h : q ≤ 0) : round2 q ≤ 0 := by
  unfold round2
  have h1 : q * 100 ≤ 0 := mul_nonpos_iff.mpr (Or.inr ⟨h, by norm_num⟩)
  have h2 : roundHalfEven (q * 100) ≤ 0 := roundHalfEven_nonpos _ h1
  have h3 : ((roundHalfEven (q * 100) : Int) : ℚ) ≤ 0 := by exact_mod_cast h2
  exact div_nonpos_iff.mpr (Or.inr ⟨h3, by norm_num⟩)

/-- Rounding five sixths to cents gives 0.83. -/
theorem round2_five_sixths : round2 (5/6 : ℚ) = 83/100 := by
  have h1 : (5/6 : ℚ) * 100 = 250/3 := by norm_num
  have hfl : ⌊(250/3 : ℚ)⌋ = 83 := by
    rw [Int.floor_eq_iff]
    norm_num
  unfold round2 roundHalfEven
  rw [h1, hfl]
  norm_num

/-- Rounding zero to cents gives zero. -/
theorem round2_zero : round2 (0 : ℚ) = 0 := by
  simpa using round2_intCast 0

/-- C1 (amended part): a successful create_booking call preserves the
non-overlap invariant, because the booking it inserts is pending and the
overlap query only counts confirmed/active bookings. -/
theorem createBooking_preserves_noOverlap
    (st : DBState) (req : BookingRequest) (bref : String) (now : Int)
    (st' : DBState) (b : Booking)
    (hinv : noOverlap st = true)
    (h : create_booking st req bref now = .ok (st', b)) :
    noOverlap st' = true := by
  unfold create_booking at h
  split at h
  · cases h
  · split at h
    · cases h
    · simp only [Except.ok.injEq, Prod.mk.injEq] at h
      obtain ⟨h1, h2⟩ := h
      subst h1
      exact noOverlap_append_nonblocking st _ rfl hinv

theorem createBooking_preserves_noOverlap_witness :
    noOverlap exSt1 = true :=
  createBooking_preserves_noOverlap exSt0 exReq "BK1" 0 exSt1 exBk1 (by decide) rfl

/-- C1 (counterexample): the payment-completion path does not re-run the
overlap test, so a reachable state can hold two confirmed bookings for the
same space with identical intervals. -/
theorem paymentPath_violates_noOverlap :
    Reachable exSt4 ∧ noOverlap exSt4 = false := by
  refine ⟨?_, by decide⟩
  have h0 : Reachable exSt0 := Reachable.init [exSpace]
  have h1 : Reachable exSt1 :=
    Reachable.step _ _ h0
      (Step.createB exSt0 exReq "BK1" 0 exSt1 exBk1 (by decide) rfl)
  have h2 : Reachable exSt2 :=
    Reachable.step _ _ h1
      (Step.createB exSt1 exReq "BK2" 0 exSt2 exBk2 (by decide) rfl)
  have h3 : Reachable exSt3 :=
    Reachable.step _ _ h2
      (Step.payB exSt2 "BK1" "card" "PAY1" "t1" 100 exSt3
        (payAfter (process_payment exSt2 "BK1" "card" "PAY1" "t1" 100)) rfl)
  exact Reachable.step _ _ h3
    (Step.payB exSt3 "BK2" "card" "PAY2" "t2" 200 exSt4
      (payAfter (process_payment exSt3 "BK2" "card" "PAY2" "t2" 200)) rfl)

/-- Pointwise reading of the conflict filter of create_booking. -/
theorem conflict_filter_iff (req : BookingRequest) (b : Booking) :
    (b.space_number == req.space_number
      && conflictsWith req.start_time req.end_time b) = true
    ↔ b.space_number = req.space_number
        ∧ (b.status = .confirmed ∨ b.status = .active)
        ∧ b.start_time < req.end_time ∧ req.start_time < b.end_time := by
  simp [conflictsWith, and_assoc]

/-- C2: with the space present, create_booking returns the conflict error
exactly when some confirmed/active booking for the same space overlaps the
request under the strict half-open rule, and succeeds otherwise. -/
theorem createBooking_conflict_iff
    (st : DBState) (req : BookingRequest) (bref : String) (now : Int)
    (space : ParkingSpace)
    (hsp : st.spaces.find? (fun s => s.space_number == req.space_number)
      = some space) :
    (create_booking st req bref now = .error .spaceUnavailable
      ↔ ∃ b ∈ st.bookings, b.space_number = req.space_number
          ∧ (b.status = .confirmed ∨ b.status = .active)
          ∧ b.start_time < req.end_time ∧ req.start_time < b.end_time)
    ∧ (¬(∃ b ∈ st.bookings, b.space_number = req.space_number
          ∧ (b.status = .confirmed ∨ b.status = .active)
          ∧ b.start_time < req.end_time ∧ req.start_time < b.end_time) →
        (create_booking st req bref now).isOk = true) := by
  have hany : (st.bookings.any (fun b =>
      b.space_number == req.space_number
        && conflictsWith req.start_time req.end_time b)) = true
      ↔ ∃ b ∈ st.bookings, b.space_number = req.space_number
          ∧ (b.status = .confirmed ∨ b.status = .active)
          ∧ b.start_time < req.end_time ∧ req.start_time < b.end_time := by
    rw [List.any_eq_true]
    constructor
    · rintro ⟨b, hb, hpred⟩
      exact ⟨b, hb, (conflict_filter_iff req b).mp hpred⟩
    · rintro ⟨b, hb, hpred⟩
      exact ⟨b, hb, (conflict_filter_iff req b).mpr hpred⟩
  constructor
  · rw [← hany]
    by_cases hA : (st.bookings.any (fun b =>
        b.space_number == req.space_number
          && conflictsWith req.start_time req.end_time b)) = true
    · simp [create_booking, hsp, hA]
    · simp [create_booking, hsp, Bool.eq_false_iff.mpr hA]
  · intro hno
    have hA : (st.bookings.any (fun b =>
        b.space_number == req.space_number
          && conflictsWith req.start_time req.end_time b)) = false :=
      Bool.eq_false_iff.mpr (fun hc => hno (hany.mp hc))
    simp [create_booking, hsp, hA, Except.isOk, Except.toBool]

theorem createBooking_conflict_iff_witness :
    create_booking exSt3 exReqOverlap "BK3" 300 = .error .spaceUnavailable := by
  have h := createBooking_conflict_iff exSt3 exReqOverlap "BK3" 300 exSpace rfl
  exact h.1.mpr (by decide)



/-- C3 (counterexample): a cancelled, unpaid booking is confirmed and marked
paid by process_payment instead of failing with InvalidState. -/
theorem processPayment_confirms_cancelled :
    process_payment exStC "BKC" "card" "PAY9" "t9" 50 = .ok (exStCPaid, exStCPay)
    ∧ statusOf exStC "BKC" = some .cancelled
    ∧ payStatusOf exStC "BKC" = some .pending
    ∧ statusOf exStCPaid "BKC" = some .confirmed
    ∧ payStatusOf exStCPaid "BKC" = some .paid :=
  ⟨rfl, rfl, rfl, rfl, rfl⟩

/-- C3 (amended): process_payment guards only on payment_status. -/
theorem processPayment_guards_only_payment_status
    (st : DBState) (ref method payRef txn : String) (now : Int) (b : Booking)
    (hfind : st.bookings.find? (fun x => x.booking_reference == ref) = some b) :
    (b.payment_status = .paid →
      process_payment st ref method payRef txn now = .error .alreadyPaid)
    ∧ (b.payment_status ≠ .paid →
      (process_payment st ref method payRef txn now).isOk = true
        ∧ statusOf (stAfterPay (process_payment st ref method payRef txn now) st)
            ref = some .confirmed
        ∧ payStatusOf (stAfterPay (process_payment st ref method payRef txn now) st)
            ref = some .paid) := by
  constructor
  · intro hp
    simp [process_payment, hfind, hp]
  · intro hp
    have hb : (b.payment_status == .paid) = false := by
      simpa using hp
    have heq : process_payment st ref method payRef txn now
        = .ok ({ st with
            payments := st.payments
              ++ [completePayment (mkPayment b method payRef) txn now]
            bookings := updateBooking st.bookings ref (confirmBooking payRef) },
          completePayment (mkPayment b method payRef) txn now) := by
      simp [process_payment, hfind, hb, demo_mode]
    have hupd := find?_updateBooking st.bookings ref (confirmBooking payRef) b
      (fun x => rfl) hfind
    refine ⟨by simp [heq, Except.isOk, Except.toBool], ?_, ?_⟩
    · simp [heq, stAfterPay, statusOf, hupd, confirmBooking]
    · simp [heq, stAfterPay, payStatusOf, hupd, confirmBooking]

theorem processPayment_guards_only_payment_status_witness :
    (process_payment exStC "BKC" "card" "PAY9" "t9" 50).isOk = true
    ∧ statusOf (stAfterPay (process_payment exStC "BKC" "card" "PAY9" "t9" 50)
        exStC) "BKC" = some .confirmed
    ∧ payStatusOf (stAfterPay (process_payment exStC "BKC" "card" "PAY9" "t9" 50)
        exStC) "BKC" = some .paid :=
  (processPayment_guards_only_payment_status exStC "BKC" "card" "PAY9" "t9" 50
    exCancelled rfl).2 (by decide)

/-- C4 (counterexample): an empty interval is not rejected by any of the
three operations, and create_booking inserts a booking for it. -/
theorem degenerateInterval_not_rejected :
    get_available_slots exSt0 3600 3600 = [exSpace]
    ∧ calculate_booking_cost exSt0 "P001" 3600 3600 = .ok 0
    ∧ create_booking exSt0 exReqDegen "BK9" 0 = .ok (exStDegen, exBkDegen)
    ∧ exStDegen.bookings = [exBkDegen] := by
  refine ⟨rfl, ?_, rfl, rfl⟩
  simp only [calculate_booking_cost, exSt0, exSpace, List.find?]
  norm_num [round2_zero]

/-- C4 (amended): with end at or before start, the quote endpoint returns a
non-positive (cents-rounded) amount and create_booking proceeds to insert a
pending booking whenever the space exists and the overlap filter matches
nothing. -/
theorem invertedInterval_proceeds
    (st : DBState) (req : BookingRequest) (bref : String) (now : Int)
    (space : ParkingSpace)
    (hend : req.end_time ≤ req.start_time)
    (hrate : 0 ≤ space.hourly_rate)
    (hsp : st.spaces.find? (fun s => s.space_number == req.space_number)
      = some space)
    (hnc : ∀ b ∈ st.bookings, (b.space_number == req.space_number
        && conflictsWith req.start_time req.end_time b) = false) :
    calculate_booking_cost st req.space_number req.start_time req.end_time
        = .ok (round2 (quoteSpec req.start_time req.end_time space.hourly_rate))
    ∧ round2 (quoteSpec req.start_time req.end_time space.hourly_rate) ≤ 0
    ∧ (create_booking st req bref now).isOk = true
    ∧ (stAfter (create_booking st req bref now) st).bookings
        = st.bookings ++ [bkAfter (create_booking st req bref now)]
    ∧ (bkAfter (create_booking st req bref now)).status = .pending
    ∧ (bkAfter (create_booking st req bref now)).total_amount ≤ 0 := by
  have hA : (st.bookings.any (fun b =>
      b.space_number == req.space_number
        && conflictsWith req.start_time req.end_time b)) = false := by
    rw [List.any_eq_false]
    intro b hb
    simp [hnc b hb]
  have h1 : ((req.end_time - req.start_time : Int) : ℚ) ≤ 0 := by
    have h2 := sub_nonpos.mpr hend
    exact_mod_cast h2
  have hq : quoteSpec req.start_time req.end_time space.hourly_rate ≤ 0 := by
    unfold quoteSpec
    have h2 : ((req.end_time - req.start_time : Int) : ℚ) / 3600 ≤ 0 :=
      div_nonpos_iff.mpr (Or.inr ⟨h1, by norm_num⟩)
    exact mul_nonpos_iff.mpr (Or.inr ⟨h2, hrate⟩)
  refine ⟨?_, round2_nonpos _ hq, ?_, ?_, ?_, ?_⟩
  · simp [calculate_booking_cost, hsp, quoteSpec]
  · simp [create_booking, hsp, hA, Except.isOk, Except.toBool]
  · simp [create_booking, hsp, hA, stAfter, bkAfter]
  · simp [create_booking, hsp, hA, bkAfter]
  · simp only [create_booking, hsp, hA, Bool.false_eq_true, if_false, bkAfter]
    exact hq

theorem invertedInterval_proceeds_witness :
    calculate_booking_cost exSt0 "P001" 3600 3600
        = .ok (round2 (quoteSpec 3600 3600 5))
    ∧ round2 (quoteSpec 3600 3600 5) ≤ 0
    ∧ (create_booking exSt0 exReqDegen "BK9" 0).isOk = true
    ∧ (stAfter (create_booking exSt0 exReqDegen "BK9" 0) exSt0).bookings
        = exSt0.bookings ++ [bkAfter (create_booking exSt0 exReqDegen "BK9" 0)]
    ∧ (bkAfter (create_booking exSt0 exReqDegen "BK9" 0)).status = .pending
    ∧ (bkAfter (create_booking exSt0 exReqDegen "BK9" 0)).total_amount ≤ 0 :=
  invertedInterval_proceeds exSt0 exReqDegen "BK9" 0 exSpace (by decide)
    (by norm_num [exSpace]) rfl (fun b hb => by simp [exSt0] at hb)



/-- C5: full functional behaviour of process_payment in demo mode. -/
theorem processPayment_spec
    (st : DBState) (ref method payRef txn : String) (now : Int) :
    (st.bookings.find? (fun x => x.booking_reference == ref) = none →
      process_payment st ref method payRef txn now = .error .bookingNotFound)
    ∧ ∀ b, st.bookings.find? (fun x => x.booking_reference == ref) = some b →
        (b.payment_status = .paid →
          process_payment st ref method payRef txn now = .error .alreadyPaid)
        ∧ (b.payment_status ≠ .paid →
          process_payment st ref method payRef txn now
            = .ok ({ st with
                payments := st.payments
                  ++ [completePayment (mkPayment b method payRef) txn now]
                bookings := updateBooking st.bookings ref
                  (confirmBooking payRef) },
              completePayment (mkPayment b method payRef) txn now)
          ∧ (completePayment (mkPayment b method payRef) txn now).amount
              = b.total_amount
          ∧ (completePayment (mkPayment b method payRef) txn now).status
              = .completed
          ∧ (completePayment (mkPayment b method payRef) txn now).gateway_transaction_id
              = some txn
          ∧ (completePayment (mkPayment b method payRef) txn now).completed_at
              = some now
          ∧ statusOf (stAfterPay (process_payment st ref method payRef txn now) st)
              ref = some .confirmed
          ∧ payStatusOf (stAfterPay (process_payment st ref method payRef txn now) st)
              ref = some .paid
          ∧ paymentIdOf (stAfterPay (process_payment st ref method payRef txn now) st)
              ref = some (some payRef)) := by
  constructor
  · intro h
    simp [process_payment, h]
  · intro b hfind
    constructor
    · intro hp
      simp [process_payment, hfind, hp]
    · intro hp
      have hb : (b.payment_status == .paid) = false := by
        simpa using hp
      have heq : process_payment st ref method payRef txn now
          = .ok ({ st with
              payments := st.payments
                ++ [completePayment (mkPayment b method payRef) txn now]
              bookings := updateBooking st.bookings ref (confirmBooking payRef) },
            completePayment (mkPayment b method payRef) txn now) := by
        simp [process_payment, hfind, hb, demo_mode]
      have hupd := find?_updateBooking st.bookings ref (confirmBooking payRef) b
        (fun x => rfl) hfind
      refine ⟨heq, rfl, rfl, rfl, rfl, ?_, ?_, ?_⟩
      · simp [heq, stAfterPay, statusOf, hupd, confirmBooking]
      · simp [heq, stAfterPay, payStatusOf, hupd, confirmBooking]
      · simp [heq, stAfterPay, paymentIdOf, hupd, confirmBooking]

theorem processPayment_spec_witness :
    process_payment exSt2 "BK1" "card" "PAY1" "t1" 100
      = .ok ({ exSt2 with
          payments := exSt2.payments
            ++ [completePayment (mkPayment exBk1 "card" "PAY1") "t1" 100]
          bookings := updateBooking exSt2.bookings "BK1"
            (confirmBooking "PAY1") },
        completePayment (mkPayment exBk1 "card" "PAY1") "t1" 100)
    ∧ statusOf (stAfterPay (process_payment exSt2 "BK1" "card" "PAY1" "t1" 100)
        exSt2) "BK1" = some .confirmed := by
  have h := ((processPayment_spec exSt2 "BK1" "card" "PAY1" "t1" 100).2 exBk1
    rfl).2 (by decide)
  exact ⟨h.1, h.2.2.2.2.2.1⟩

/-- C6: full behaviour of cancel_booking, with the lead-time policy phrased
over integer seconds: strictly under 7200 seconds to start is rejected, the
exact boundary is accepted. -/
theorem cancelBooking_spec (st : DBState) (ref : String) (now : Int) :
    (st.bookings.find? (fun x => x.booking_reference == ref) = none →
      cancel_booking st ref now = .error .bookingNotFound)
    ∧ ∀ b, st.bookings.find? (fun x => x.booking_reference == ref) = some b →
        ((b.status = .completed ∨ b.status = .cancelled) →
          cancel_booking st ref now = .error .cannotCancel)
        ∧ (b.status ≠ .completed → b.status ≠ .cancelled →
          (b.start_time - now < 7200 →
            cancel_booking st ref now = .error .cancelTooLate)
          ∧ (7200 ≤ b.start_time - now →
            cancel_booking st ref now
              = .ok { st with
                  bookings := updateBooking st.bookings ref (cancelUpdate now) }
            ∧ statusOf (stAfterCancel (cancel_booking st ref now) st) ref
                = some .cancelled
            ∧ updatedAtOf (stAfterCancel (cancel_booking st ref now) st) ref
                = some now)) := by
  constructor
  · intro h
    simp [cancel_booking, h]
  · intro b hfind
    constructor
    · intro hterm
      have hg : (b.status == .completed || b.status == .cancelled) = true := by
        rcases hterm with h1 | h1 <;> simp [h1]
      simp [cancel_booking, hfind, hg]
    · intro h1 h2
      have hg : (b.status == .completed || b.status == .cancelled) = false := by
        simp [h1, h2]
      constructor
      · intro hlt
        have hq : ((b.start_time - now : Int) : ℚ) / 3600 < cancellation_hours := by
          unfold cancellation_hours
          exact (hours_lt_two_iff _).mpr hlt
        push_cast at hq
        simp [cancel_booking, hfind, hg, hq]
      · intro hge
        have hq : ¬(((b.start_time - now : Int) : ℚ) / 3600 < cancellation_hours) := by
          unfold cancellation_hours
          rw [hours_lt_two_iff]
          exact not_lt.mpr hge
        push_cast at hq
        have heq : cancel_booking st ref now
            = .ok { st with
                bookings := updateBooking st.bookings ref (cancelUpdate now) } := by
          simp [cancel_booking, hfind, hg, hq]
        have hupd := find?_updateBooking st.bookings ref (cancelUpdate now) b
          (fun x => rfl) hfind
        refine ⟨heq, ?_, ?_⟩
        · simp [heq, stAfterCancel, statusOf, hupd, cancelUpdate]
        · simp [heq, stAfterCancel, updatedAtOf, hupd, cancelUpdate]

theorem cancelBooking_spec_witness :
    (cancel_booking exStPend "BKP" 0
      = .ok { exStPend with
          bookings := updateBooking exStPend.bookings "BKP" (cancelUpdate 0) })
    ∧ cancel_booking exStPend "BKP" 1 = .error .cancelTooLate := by
  have h := ((cancelBooking_spec exStPend "BKP" 0).2 exBkPend rfl).2
    (by decide) (by decide)
  have h2 := ((cancelBooking_spec exStPend "BKP" 1).2 exBkPend rfl).2
    (by decide) (by decide)
  exact ⟨(h.2 (by decide)).1, h2.1 (by decide)⟩



/-- C7 (counterexample): ten minutes at rate 5.00 is quoted 0.83 by the
endpoint, because of the round(total_cost, 2) of app.py line 456, while the
unrounded formula of the claim gives five sixths. -/
theorem quote_rounded_ne_formula :
    calculate_booking_cost exSt0 "P001" 0 600 = .ok (83/100)
    ∧ quoteSpec 0 600 5 = 5/6
    ∧ (83/100 : ℚ) ≠ 5/6 := by
  refine ⟨?_, by norm_num [quoteSpec], by norm_num⟩
  simp only [calculate_booking_cost, exSt0, exSpace, List.find?]
  norm_num [round2_five_sixths]

/-- C7 (amended): the amount stored at creation follows the exact
seconds-over-3600 times rate formula, while the quote endpoint returns that
amount rounded to two decimals. -/
theorem quote_and_create_amount
    (st : DBState) (req : BookingRequest) (bref : String) (now : Int)
    (space : ParkingSpace)
    (hsp : st.spaces.find? (fun s => s.space_number == req.space_number)
      = some space) :
    calculate_booking_cost st req.space_number req.start_time req.end_time
        = .ok (round2 (quoteSpec req.start_time req.end_time space.hourly_rate))
    ∧ ∀ st2 nb, create_booking st req bref now = .ok (st2, nb) →
        nb.total_amount
          = quoteSpec req.start_time req.end_time space.hourly_rate := by
  constructor
  · simp [calculate_booking_cost, hsp, quoteSpec]
  · intro st2 nb h
    unfold create_booking at h
    split at h
    · cases h
    · rename_i space2 heq
      rw [hsp] at heq
      injection heq with heq
      subst heq
      split at h
      · cases h
      · simp only [Except.ok.injEq, Prod.mk.injEq] at h
        obtain ⟨h1, h2⟩ := h
        rw [← h2]
        rfl

theorem quote_and_create_amount_witness :
    calculate_booking_cost exSt0 "P001" 0 10800 = .ok 15
    ∧ exBk1.total_amount = 15 := by
  have h := quote_and_create_amount exSt0 exReq "BK1" 0 exSpace rfl
  have h15 : quoteSpec 0 10800 (5 : ℚ) = 15 := by norm_num [quoteSpec]
  have hr : round2 (quoteSpec 0 10800 (5 : ℚ)) = 15 := by
    rw [h15, show (15 : ℚ) = ((15 : Int) : ℚ) by norm_num, round2_intCast]
  exact ⟨h.1.trans (congrArg Except.ok hr),
    (h.2 exSt1 exBk1 rfl).trans h15⟩

/-- C9: create_booking never reads the physical-occupancy flag, while the
availability listing excludes occupied spaces. -/
theorem createBooking_ignores_occupancy
    (st : DBState) (req : BookingRequest) (bref : String) (now : Int)
    (space : ParkingSpace)
    (hsp : st.spaces.find? (fun s => s.space_number == req.space_number)
      = some space)
    (hocc : space.is_occupied = true)
    (hnc : ∀ b ∈ st.bookings, (b.space_number == req.space_number
        && conflictsWith req.start_time req.end_time b) = false) :
    (create_booking st req bref now).isOk = true
    ∧ (bkAfter (create_booking st req bref now)).status = .pending
    ∧ space ∉ get_available_slots st req.start_time req.end_time := by
  have hA : (st.bookings.any (fun b =>
      b.space_number == req.space_number
        && conflictsWith req.start_time req.end_time b)) = false := by
    rw [List.any_eq_false]
    intro b hb
    simp [hnc b hb]
  refine ⟨?_, ?_, ?_⟩
  · simp [create_booking, hsp, hA, Except.isOk, Except.toBool]
  · simp [create_booking, hsp, hA, bkAfter]
  · intro hmem
    unfold get_available_slots at hmem
    rw [List.mem_filter] at hmem
    simp [hocc] at hmem

theorem createBooking_ignores_occupancy_witness :
    (create_booking exStOcc exReqOcc "BK8" 0).isOk = true
    ∧ (bkAfter (create_booking exStOcc exReqOcc "BK8" 0)).status = .pending
    ∧ exSpaceOcc ∉ get_available_slots exStOcc 0 3600 :=
  createBooking_ignores_occupancy exStOcc exReqOcc "BK8" 0 exSpaceOcc rfl rfl
    (fun b hb => by simp [exStOcc] at hb)

/-- C10: an unparseable from_date makes get_all_bookings silently compute
the same successful result as if no from_date had been supplied. -/
theorem badFromDate_ignored (st : DBState) (statusFilter : Option BookingStatus)
    (parseIso : String → Option Int) (s : String)
    (hbad : parseIso s = none) :
    get_all_bookings st statusFilter (some s) parseIso
      = get_all_bookings st statusFilter none parseIso := by
  simp [get_all_bookings, hbad]

theorem badFromDate_ignored_witness :
    get_all_bookings exSt4 none (some "not-a-date") noParse
      = get_all_bookings exSt4 none none noParse :=
  badFromDate_ignored exSt4 none noParse "not-a-date" rfl




/-- No payment row can reference a booking reference absent from the table. -/
theorem completedFor_eq_nil_of_not_linked (st : DBState) (r : String)
    (hlink : paymentsLinked st)
    (habs : r ∉ st.bookings.map Booking.booking_reference) :
    completedFor st r = [] := by
  unfold completedFor
  rw [List.filter_eq_nil_iff]
  intro p hp hcontra
  rw [Bool.and_eq_true] at hcontra
  have h1 : p.booking_ref = r := by simpa using hcontra.1
  exact habs (h1 ▸ hlink p hp)

/-- Creation preserves the strengthened payment invariant. -/
theorem payInv_create (st st' : DBState) (req : BookingRequest) (bref : String)
    (now : Int) (b : Booking)
    (hfresh : ∀ x ∈ st.bookings, x.booking_reference ≠ bref)
    (hinv : payInv st)
    (h : create_booking st req bref now = .ok (st', b)) : payInv st' := by
  obtain ⟨hnd, hlink, hpay⟩ := hinv
  unfold create_booking at h
  split at h
  · cases h
  · split at h
    · cases h
    · simp only [Except.ok.injEq, Prod.mk.injEq] at h
      obtain ⟨h1, h2⟩ := h
      subst h1
      have hout : bref ∉ st.bookings.map Booking.booking_reference := by
        intro hc
        obtain ⟨x, hx, hxr⟩ := List.mem_map.mp hc
        exact hfresh x hx hxr
      have hempty : completedFor st bref = [] :=
        completedFor_eq_nil_of_not_linked st bref hlink hout
      refine ⟨?_, ?_, ?_⟩
      · unfold refsUnique at hnd ⊢
        dsimp only
        simp only [List.map_append, List.map_cons, List.map_nil]
        rw [List.nodup_append]
        refine ⟨hnd, List.nodup_singleton _, ?_⟩
        intro r hr hr2
        simp only [List.mem_singleton] at hr2
        subst hr2
        exact hout hr
      · unfold paymentsLinked at hlink ⊢
        dsimp only
        intro p hp
        simp only [List.map_append]
        exact List.mem_append_left _ (hlink p hp)
      · unfold paidIffCompleted at hpay ⊢
        dsimp only
        intro b' hb'
        rcases List.mem_append.mp hb' with hb1 | hb1
        · exact hpay b' hb1
        · simp only [List.mem_singleton] at hb1
          subst hb1
          unfold completedFor at hempty ⊢
          dsimp only
          rw [hempty]
          simp



/-- Cancellation preserves the strengthened payment invariant. -/
theorem payInv_cancel (st st' : DBState) (ref : String) (now : Int)
    (hinv : payInv st)
    (h : cancel_booking st ref now = .ok st') : payInv st' := by
  obtain ⟨hnd, hlink, hpay⟩ := hinv
  unfold cancel_booking at h
  split at h
  · cases h
  · split at h
    · cases h
    · dsimp only at h
      split at h
      · cases h
      · simp only [Except.ok.injEq] at h
        subst h
        refine ⟨?_, ?_, ?_⟩
        · unfold refsUnique at hnd ⊢
          dsimp only
          rw [updateBooking_map_ref st.bookings ref (cancelUpdate now)
            (fun x => rfl)]
          exact hnd
        · unfold paymentsLinked at hlink ⊢
          dsimp only
          intro p hp
          rw [updateBooking_map_ref st.bookings ref (cancelUpdate now)
            (fun x => rfl)]
          exact hlink p hp
        · unfold paidIffCompleted at hpay ⊢
          dsimp only
          intro b' hb'
          rcases mem_updateBooking _ _ _ _ hb' with hb1 | ⟨c, hc, hfc⟩
          · exact hpay b' hb1
          · subst hfc
            exact hpay c hc

/-- The occupancy update preserves the strengthened payment invariant. -/
theorem payInv_setOcc (st st' : DBState) (sn : String) (occ : Bool)
    (hinv : payInv st)
    (h : update_parking_status st sn occ = .ok st') : payInv st' := by
  obtain ⟨hnd, hlink, hpay⟩ := hinv
  unfold update_parking_status at h
  split at h
  · cases h
  · simp only [Except.ok.injEq] at h
    subst h
    exact ⟨hnd, hlink, hpay⟩



/-- Demo-mode payment preserves the strengthened payment invariant. -/
theorem payInv_pay (st st' : DBState) (ref method payRef txn : String)
    (now : Int) (p : Payment)
    (hinv : payInv st)
    (h : process_payment st ref method payRef txn now = .ok (st', p)) :
    payInv st' := by
  obtain ⟨hnd, hlink, hpay⟩ := hinv
  unfold process_payment at h
  split at h
  · cases h
  · rename_i b0 hfind
    split at h
    · cases h
    · rename_i hpaid
      dsimp only at h
      split at h
      · simp only [Except.ok.injEq, Prod.mk.injEq] at h
        obtain ⟨h1, h2⟩ := h
        subst h1
        have hb0mem : b0 ∈ st.bookings := List.mem_of_find?_eq_some hfind
        have hb0ref : b0.booking_reference = ref := by
          have h3 := List.find?_some hfind
          simpa using h3
        have hb0unpaid : b0.payment_status ≠ .paid := by
          intro hc
          rw [hc] at hpaid
          simp at hpaid
        have hempty : completedFor st ref = [] := by
          have h4 := (hpay b0 hb0mem).1
          rw [hb0ref] at h4
          have h5 : (completedFor st ref).length = 0 := by
            by_contra hco
            exact hb0unpaid (h4.mpr (by omega))
          exact List.length_eq_zero.mp h5
        refine ⟨?_, ?_, ?_⟩
        · unfold refsUnique at hnd ⊢
          dsimp only
          rw [updateBooking_map_ref st.bookings ref (confirmBooking payRef)
            (fun x => rfl)]
          exact hnd
        · unfold paymentsLinked at hlink ⊢
          dsimp only
          intro q hq
          rw [updateBooking_map_ref st.bookings ref (confirmBooking payRef)
            (fun x => rfl)]
          rcases List.mem_append.mp hq with hq1 | hq1
          · exact hlink q hq1
          · simp only [List.mem_singleton] at hq1
            subst hq1
            dsimp only [completePayment, mkPayment]
            exact List.mem_map_of_mem Booking.booking_reference hb0mem
        · unfold paidIffCompleted at hpay ⊢
          dsimp only
          intro b' hb'
          rcases mem_updateBooking_nodup st.bookings ref (confirmBooking payRef)
            hnd b' hb' with ⟨c, hc, hcref, hfc⟩ | ⟨hb1, hb1ref⟩
          · subst hfc
            unfold completedFor at hempty ⊢
            dsimp only [confirmBooking]
            rw [hcref, List.filter_append, hempty]
            simp [completePayment, mkPayment, hb0ref]
          · have hq2 : ((completePayment (mkPayment b0 method payRef) txn
                now).booking_ref == b'.booking_reference) = false := by
              dsimp only [completePayment, mkPayment]
              rw [hb0ref]
              exact beq_eq_false_iff_ne.mpr (Ne.symm hb1ref)
            have hold := hpay b' hb1
            unfold completedFor at hold ⊢
            dsimp only
            simp only [List.filter_append, List.filter_cons, hq2,
              Bool.false_and, Bool.false_eq_true, if_false, List.filter_nil,
              List.append_nil]
            exact hold
      · rename_i hcd
        simp [demo_mode] at hcd



/-- Every successful operation preserves the strengthened payment invariant. -/
theorem payInv_step (s s' : DBState) (hinv : payInv s) (hs : Step s s') :
    payInv s' := by
  cases hs with
  | createB req bref now st2 b hfresh h =>
    exact payInv_create s s' req bref now b hfresh hinv h
  | cancelB ref now st2 h => exact payInv_cancel s s' ref now hinv h
  | payB ref method payRef txn now st2 p h =>
    exact payInv_pay s s' ref method payRef txn now p hinv h
  | setOcc sn occ st2 h => exact payInv_setOcc s s' sn occ hinv h

/-- Every reachable state satisfies the strengthened payment invariant. -/
theorem reachable_payInv (s : DBState) (h : Reachable s) : payInv s := by
  induction h with
  | init spaces =>
    refine ⟨List.nodup_nil, ?_, ?_⟩
    · intro p hp
      simp at hp
    · intro b hb
      simp at hb
  | step s s' hr hs ih => exact payInv_step s s' ih hs

/-- C8: in every reachable state a booking is paid exactly when at least one
completed payment references it, and never more than one completed payment
references it. -/
theorem reachable_paidIffCompleted (st : DBState) (h : Reachable st) :
    paidIffCompleted st :=
  (reachable_payInv st h).2.2

theorem reachable_paidIffCompleted_witness : paidIffCompleted exSt1 :=
  reachable_paidIffCompleted exSt1
    (Reachable.step _ _ (Reachable.init [exSpace])
      (Step.createB exSt0 exReq "BK1" 0 exSt1 exBk1 (by decide) rfl))

end SmartPark
